import Mathlib

/-!
# rapidpro-osm-extractor: a shallow embedding of `utils.go`, `osm.go` and `main.go`

Go strings are modelled by `String`, Go slices by `List`, Go `int` by `Int`
(no arithmetic is performed on identifiers or admin levels, so no overflow can
occur), Go `error` values by their message (`Option String`, `none` = `nil`).
The network fetch, the file system and the YAML decoder are parameters of the
model (`Env`), and every fetch / write attempt is recorded in an explicit log.
-/

set_option autoImplicit false

namespace RapidproOsm

/-! ## Library functions used by the source -/

/-- Go `strings.Replace(s, old, new, n)` on the characters of `s`, for a one
character `old`: the first `n` occurrences of `old` are replaced by `new`. -/
def replaceChars (old : Char) (new : List Char) : Nat → List Char → List Char
  | 0, s => s
  | _ + 1, [] => []
  | n + 1, c :: cs =>
    if c = old then new ++ replaceChars old new n cs
    else c :: replaceChars old new (n + 1) cs

/-- Go `strings.Replace` for a one character `old`. -/
def stringsReplace (s : String) (old : Char) (new : String) (n : Nat) : String :=
  ⟨replaceChars old new.data n s.data⟩

/-- Go `strings.Split(s, sep)` on the characters of `s`, for a one character
`sep`; `cur` holds the characters of the current field in reverse. The result
always has one more field than `s` has separators (so `""` gives `[""]`). -/
def splitChars (sep : Char) : List Char → List Char → List String
  | [], cur => [⟨cur.reverse⟩]
  | c :: cs, cur =>
    if c = sep then ⟨cur.reverse⟩ :: splitChars sep cs []
    else splitChars sep cs (c :: cur)

/-- Go `strings.Split` for a one character separator. -/
def stringsSplit (s : String) (sep : Char) : List String :=
  splitChars sep s.data []

/-- Go `strconv.Itoa`: the decimal text of an integer, with a leading `-` for
negative values. -/
def Itoa (i : Int) : String :=
  if i < 0 then "-" ++ Nat.repr i.natAbs else Nat.repr i.natAbs

/-! ## utils.go -/

/-- Source `intersection`: `hash` is the key set of the Go map, filled from `s1`;
`s2` is then scanned in order and every entry found in `hash` is appended. -/
def intersection (s1 s2 : List String) : List String :=
  let hash : List String := s1.foldl (fun h e => if e ∈ h then h else e :: h) []
  s2.foldl (fun res e => if e ∈ hash then res ++ [e] else res) []

/-- Source `rpOSMIdConv`: `strings.Replace(osmId, "-", "R", 1)`. -/
def rpOSMIdConv (osmId : String) : String :=
  stringsReplace osmId '-' "R" 1

/-! ## osm.go: data model

`κ` is the type of the opaque `coordinates` value (`interface{}` in the source);
the Go field `Type` is written `Type_`. -/

/-- The anonymous `Geometry` struct shared by source and target features. -/
structure Geometry (κ : Type) where
  Type_ : String
  Coordinates : κ

/-- The anonymous `Properties` struct of an `OSMGeoJSON` feature. -/
structure OSMProperties where
  OSMID : Int
  Boundary : String
  AdminLevel : Int
  Parents : String
  Name : String
  LocalName : String
  NameEn : String

/-- The anonymous feature struct of `OSMGeoJSON`. -/
structure OSMFeature (κ : Type) where
  Type_ : String
  Geometry : Geometry κ
  Properties : OSMProperties

/-- Source `OSMGeoJSON`. -/
structure OSMGeoJSON (κ : Type) where
  Type_ : String
  Features : List (OSMFeature κ)

/-- Source `RapidProGeoJSONProperties`. -/
structure RapidProGeoJSONProperties where
  OSMID : String
  Name : String
  NameEn : String
  IsInCountry : String
  IsInState : String

/-- Source `RapidProGeoJSONFeature`. -/
structure RapidProGeoJSONFeature (κ : Type) where
  Type_ : String
  Properties : RapidProGeoJSONProperties
  Geometry : Geometry κ

/-- Source `RapidProGeoJSON`. -/
structure RapidProGeoJSON (κ : Type) where
  Type_ : String
  Features : List (RapidProGeoJSONFeature κ)

/-- The `default` block of `AdminMapping`. -/
structure AdminDefault where
  AdminLevel0 : Int
  AdminLevel1 : Int
  AdminLevel2 : Int

/-- One value of the `per_country` map of `AdminMapping`. -/
structure PerCountryEntry where
  AdminLevel1 : Int
  AdminLevel2 : Int
  MetaName : String

/-- Source `AdminMapping`; the Go map `PerCountry` is an association list whose
lookup is `List.lookup`. -/
structure AdminMapping where
  Default : AdminDefault
  PerCountry : List (String × PerCountryEntry)

/-- Source `OSMAdminLevel`. -/
structure OSMAdminLevel where
  AdminLevel0 : Int
  AdminLevel1 : Int
  AdminLevel2 : Int

/-- Source `OSMOpts` (main.go). -/
structure OSMOpts where
  ApiKey : String
  OSMDatabase : String
  OSMId : String
  SRID : String
  Simplify : String
  AdminMapFile : String
  OutDir : String

/-- Source `(*OSMOpts).getOSMBoundaryID`. -/
def OSMOpts.getOSMBoundaryID (o : OSMOpts) : String := "-" ++ o.OSMId

/-- Source `(*OSMOpts).getRapidProOSMID`. -/
def OSMOpts.getRapidProOSMID (o : OSMOpts) : String := "R" ++ o.OSMId

/-! ## osm.go: the transformer -/

/-- The body of the `for` loop of `osmToRapidPro`: the target feature appended
for one source feature. -/
def convertFeature {κ : Type} (countryOSMId : String) (stateOSMIds : List String)
    (feature : OSMFeature κ) : RapidProGeoJSONFeature κ :=
  let rpOSMId := rpOSMIdConv (Itoa feature.Properties.OSMID)
  let parents := stringsSplit feature.Properties.Parents ','
  let intersect := intersection stateOSMIds parents
  let stateOSMId :=
    match intersect with
    | [] => "None"
    | first :: _ => rpOSMIdConv first
  { Type_ := feature.Type_
    Geometry := feature.Geometry
    Properties :=
      { OSMID := rpOSMId
        Name := feature.Properties.LocalName
        NameEn := feature.Properties.Name
        IsInCountry := rpOSMIdConv countryOSMId
        IsInState := stateOSMId } }

/-- Source `osmToRapidPro`: the features are visited in order and one target
feature is appended per source feature. -/
def osmToRapidPro {κ : Type} (osmGeoJSON : OSMGeoJSON κ) (countryOSMId : String)
    (stateOSMIds : List String) : RapidProGeoJSON κ :=
  let rpFeatures := osmGeoJSON.Features.foldl
    (fun acc feature => acc ++ [convertFeature countryOSMId stateOSMIds feature]) []
  { Type_ := osmGeoJSON.Type_, Features := rpFeatures }

/-! ## osm.go: configuration, orchestration and their environment -/

/-- One externally visible action of a run: a request to the boundary API for
one admin level, or an attempt to write one output file. -/
inductive Event (κ : Type) where
  | fetch (adminLevel : Int)
  | write (doc : RapidProGeoJSON κ) (outDir filename : String)

/-- The external collaborators. `readFile` is `ioutil.ReadFile`, `yamlUnmarshal`
is `yaml.Unmarshal` into an `AdminMapping`; `download` and `writeToOutDir` are
the source functions of the same names, taken as black boxes whose result may
depend on everything that happened before (the log of earlier events). -/
structure Env (κ : Type) where
  readFile : String → Except String String
  yamlUnmarshal : String → Except String AdminMapping
  download : List (Event κ) → OSMOpts → Int → Except String (OSMGeoJSON κ)
  writeToOutDir : List (Event κ) → RapidProGeoJSON κ → String → String → Option String

/-- Source `getOSMAdminLevels`. -/
def getOSMAdminLevels {κ : Type} (env : Env κ) (osmID : String) (mapFilePath : String) :
    Except String OSMAdminLevel :=
  match env.readFile mapFilePath with
  | .error readFileErr => .error ("could not read mapping file : " ++ readFileErr)
  | .ok mapFile =>
    match env.yamlUnmarshal mapFile with
    | .error unmarshalErr => .error ("could not unmarshal mapping file : " ++ unmarshalErr)
    | .ok adminMapping =>
      let osmAdminLevel : OSMAdminLevel :=
        { AdminLevel0 := adminMapping.Default.AdminLevel0
          AdminLevel1 := adminMapping.Default.AdminLevel1
          AdminLevel2 := adminMapping.Default.AdminLevel2 }
      match adminMapping.PerCountry.lookup osmID with
      | some mapVal =>
        .ok { osmAdminLevel with
              AdminLevel1 := mapVal.AdminLevel1, AdminLevel2 := mapVal.AdminLevel2 }
      | none => .ok osmAdminLevel

/-- How a Go function call ends: it returns an `error` value (`none` is `nil`),
or it stops with a run-time panic. -/
inductive Outcome where
  | returned (err : Option String)
  | panicked
  deriving DecidableEq

/-- The result of a run of `downloadAndParseOSM`: how it ended and the events
it performed, oldest first. -/
structure Run (κ : Type) where
  outcome : Outcome
  log : List (Event κ)

/-- The part of `downloadAndParseOSM` after the three documents are mapped: the
three calls of `writeToOutDir`, stopping at the first error. -/
def writeAll {κ : Type} (env : Env κ) (osmOpts : OSMOpts) (log : List (Event κ))
    (filenamePrefix : String) (rp0 rp1 rp2 : RapidProGeoJSON κ) : Run κ :=
  let adminLevel0FileName := filenamePrefix ++ "admin0_simplified.json"
  let log0 := log ++ [Event.write rp0 osmOpts.OutDir adminLevel0FileName]
  match env.writeToOutDir log rp0 osmOpts.OutDir adminLevel0FileName with
  | some err => ⟨.returned (some err), log0⟩
  | none =>
    let adminLevel1FileName := filenamePrefix ++ "admin1_simplified.json"
    let log1 := log0 ++ [Event.write rp1 osmOpts.OutDir adminLevel1FileName]
    match env.writeToOutDir log0 rp1 osmOpts.OutDir adminLevel1FileName with
    | some err => ⟨.returned (some err), log1⟩
    | none =>
      let adminLevel2FileName := filenamePrefix ++ "admin2_simplified.json"
      let log2 := log1 ++ [Event.write rp2 osmOpts.OutDir adminLevel2FileName]
      match env.writeToOutDir log1 rp2 osmOpts.OutDir adminLevel2FileName with
      | some err => ⟨.returned (some err), log2⟩
      | none => ⟨.returned none, log2⟩

/-- Source `downloadAndParseOSM`. The index expression
`adminLevel0GeoJSON.Features[0]` panics when the slice is empty. -/
def downloadAndParseOSM {κ : Type} (env : Env κ) (osmOpts : OSMOpts) : Run κ :=
  match getOSMAdminLevels env osmOpts.getRapidProOSMID osmOpts.AdminMapFile with
  | .error err => ⟨.returned (some err), []⟩
  | .ok osmAdminLevels =>
    let log0 : List (Event κ) := [Event.fetch osmAdminLevels.AdminLevel0]
    match env.download [] osmOpts osmAdminLevels.AdminLevel0 with
    | .error err => ⟨.returned (some err), log0⟩
    | .ok adminLevel0GeoJSON =>
      let rpAdminLevel0GeoJSON := osmToRapidPro adminLevel0GeoJSON "None" []
      let log1 := log0 ++ [Event.fetch osmAdminLevels.AdminLevel1]
      match env.download log0 osmOpts osmAdminLevels.AdminLevel1 with
      | .error err => ⟨.returned (some err), log1⟩
      | .ok adminLevel1GeoJSON =>
        match adminLevel0GeoJSON.Features with
        | [] => ⟨.panicked, log1⟩
        | first :: _ =>
          let countryOSMId := Itoa first.Properties.OSMID
          let rpAdminLevel1GeoJSON := osmToRapidPro adminLevel1GeoJSON countryOSMId []
          let log2 := log1 ++ [Event.fetch osmAdminLevels.AdminLevel2]
          match env.download log1 osmOpts osmAdminLevels.AdminLevel2 with
          | .error err => ⟨.returned (some err), log2⟩
          | .ok adminLevel2GeoJSON =>
            let stateOSMIds := adminLevel1GeoJSON.Features.foldl
              (fun ids feature => ids ++ [Itoa feature.Properties.OSMID]) []
            let rpAdminLevel2GeoJSON :=
              osmToRapidPro adminLevel2GeoJSON countryOSMId stateOSMIds
            let filenamePrefix := rpOSMIdConv countryOSMId
            writeAll env osmOpts log2 filenamePrefix
              rpAdminLevel0GeoJSON rpAdminLevel1GeoJSON rpAdminLevel2GeoJSON

/-- True for the write events of a log. -/
def Event.isWrite {κ : Type} : Event κ → Bool
  | .write _ _ _ => true
  | .fetch _ => false

/-- The admin levels of the fetches of a log, oldest first. -/
def fetchedLevels {κ : Type} (log : List (Event κ)) : List Int :=
  log.filterMap fun e =>
    match e with
    | .fetch l => some l
    | .write _ _ _ => none

/-! ## main.go -/

/-- The error value built by `cli.Exit` of `urfave/cli`: a message and an exit
code. -/
structure ExitCoder where
  message : String
  exitCode : Int
  deriving DecidableEq

/-- Library `cli.Exit(message, exitCode)`: it only builds the error value, it does
not stop the process. -/
def cliExit (message : String) (exitCode : Int) : ExitCoder :=
  ⟨message, exitCode⟩

/-- How the call of the command's `Action` ends. -/
inductive ActionOutcome where
  | returned (err : Option ExitCoder)
  | panicked
  deriving DecidableEq

/-- The `Action` closure of `main`: the value of `cli.Exit(err.Error(), 1)` is
computed and dropped, and the closure goes on to `return nil`. -/
def Action {κ : Type} (env : Env κ) (osmOpts : OSMOpts) : ActionOutcome :=
  match (downloadAndParseOSM env osmOpts).outcome with
  | .panicked => .panicked
  | .returned err =>
    match err with
    | some msg =>
      let _dropped := cliExit msg 1
      .returned none
    | none => .returned none

/-- The exit status of the process for an outcome of `Action`, as `app.Run` and
`main` produce it: `0` when `Action` returns `nil`, the exit code of the
`ExitCoder` when it returns one, `2` after a panic. -/
def exitStatus : ActionOutcome → Int
  | .returned none => 0
  | .returned (some e) => e.exitCode
  | .panicked => 2

/-! ## Reading decimal text back -/

/-- The value of a decimal digit character (`'0'` is code point 48). -/
def digitValue (c : Char) : Nat := c.toNat - 48

/-- The number written by a list of decimal digits, most significant first,
continuing from the value `acc` of the digits already read. -/
def decimalValue (acc : Nat) (ds : List Char) : Nat :=
  ds.foldl (fun a c => a * 10 + digitValue c) acc

/-! ## Concrete inputs used to exercise the definitions -/

/-- A boundary feature with the given raw ID, parent list and names, and a
trivial geometry. -/
def sampleFeature (osmID : Int) (parents name localName nameEn : String) : OSMFeature Unit :=
  { Type_ := "Feature"
    Geometry := { Type_ := "MultiPolygon", Coordinates := () }
    Properties :=
      { OSMID := osmID, Boundary := "administrative", AdminLevel := 4, Parents := parents
        Name := name, LocalName := localName, NameEn := nameEn } }

/-- A one-feature document whose feature lists the parents `5,6,7`. -/
def sampleDistricts : OSMGeoJSON Unit :=
  { Type_ := "FeatureCollection"
    Features := [sampleFeature (-42) "5,6,7" "Nairobi" "Nairobi County" "Nairobi (en)"] }

/-- A mapping with default levels `{0,1,2}` and one override, `R100` to `{5,7}`. -/
def sampleMapping : AdminMapping :=
  { Default := { AdminLevel0 := 0, AdminLevel1 := 1, AdminLevel2 := 2 }
    PerCountry := [("R100", { AdminLevel1 := 5, AdminLevel2 := 7, MetaName := "Sample" })] }

/-- An environment whose mapping file `map.yaml` decodes to `sampleMapping`, whose
fetches all fail and whose writes all succeed. -/
def sampleEnv : Env Unit :=
  { readFile := fun path =>
      if path = "map.yaml" then .ok "default: ..." else .error "no such file or directory"
    yamlUnmarshal := fun _ => .ok sampleMapping
    download := fun _ _ _ => .error "Error sending request : connection refused"
    writeToOutDir := fun _ _ _ _ => none }

/-! ## Concrete runs -/

/-- Options selecting region `192798` and the mapping file `map.yaml`. -/
def sampleOpts : OSMOpts :=
  { ApiKey := "key", OSMDatabase := "osm20211227", OSMId := "192798", SRID := "4326"
    Simplify := "0.01", AdminMapFile := "map.yaml", OutDir := "out" }

/-- A one-feature country-level document. -/
def sampleCountry : OSMGeoJSON Unit :=
  { Type_ := "FeatureCollection"
    Features := [sampleFeature (-192798) "" "Kenya" "Kenya" "Kenya"] }

/-- A two-feature state-level document. -/
def sampleStates : OSMGeoJSON Unit :=
  { Type_ := "FeatureCollection"
    Features := [sampleFeature (-10) "-192798" "Nairobi" "Nairobi" "Nairobi",
                 sampleFeature (-20) "-192798" "Mombasa" "Mombasa" "Mombasa"] }

/-- An environment in which the first fetch returns `sampleCountry` and every
later fetch fails. -/
def envStateFetchFails : Env Unit :=
  { readFile := fun _ => .ok "default: ..."
    yamlUnmarshal := fun _ => .ok sampleMapping
    download := fun log _ _ =>
      match log with
      | [] => .ok sampleCountry
      | _ :: _ => .error "Error sending request : timeout"
    writeToOutDir := fun _ _ _ _ => none }

/-- An environment in which the first fetch returns a document without features
and every later fetch returns `sampleStates`. -/
def envEmptyCountry : Env Unit :=
  { readFile := fun _ => .ok "default: ..."
    yamlUnmarshal := fun _ => .ok sampleMapping
    download := fun log _ _ =>
      match log with
      | [] => .ok { Type_ := "FeatureCollection", Features := [] }
      | _ :: _ => .ok sampleStates
    writeToOutDir := fun _ _ _ _ => none }

/-- A three-feature district-level document: the first feature lies in state
`-10`, the second in state `-20`, the third in neither. -/
def sampleDistrictLevel : OSMGeoJSON Unit :=
  { Type_ := "FeatureCollection"
    Features := [sampleFeature (-101) "-192798,-10" "Westlands" "Westlands" "Westlands",
                 sampleFeature (-201) "-20,-192798" "Nyali" "Nyali" "Nyali",
                 sampleFeature (-301) "-192798" "Lamu" "Lamu" "Lamu"] }

/-- An environment in which the three fetches return `sampleCountry`,
`sampleStates` and `sampleDistrictLevel`, and every write succeeds. -/
def envAllOk : Env Unit :=
  { readFile := fun _ => .ok "default: ..."
    yamlUnmarshal := fun _ => .ok sampleMapping
    download := fun log _ _ =>
      match log with
      | [] => .ok sampleCountry
      | [_] => .ok sampleStates
      | _ => .ok sampleDistrictLevel
    writeToOutDir := fun _ _ _ _ => none }

/-! ## Auxiliary lemmas -/

theorem mem_hash_foldl (s1 : List String) (acc : List String) (e : String) :
    e ∈ s1.foldl (fun h x => if x ∈ h then h else x :: h) acc ↔ e ∈ acc ∨ e ∈ s1 := by
  induction s1 generalizing acc with
  | nil => simp
  | cons a t ih =>
    rw [List.foldl_cons, ih]
    by_cases ha : a ∈ acc
    · simp only [ha, if_true, List.mem_cons]
      constructor
      · rintro (h | h)
        · exact Or.inl h
        · exact Or.inr (Or.inr h)
      · rintro (h | h | h)
        · exact Or.inl h
        · exact Or.inl (h ▸ ha)
        · exact Or.inr h
    · simp only [ha, if_false, List.mem_cons]
      tauto

theorem scan_foldl_eq_filter (hash : List String) (s2 acc : List String) :
    s2.foldl (fun res e => if e ∈ hash then res ++ [e] else res) acc
      = acc ++ s2.filter (fun e => decide (e ∈ hash)) := by
  induction s2 generalizing acc with
  | nil => simp
  | cons a t ih =>
    rw [List.foldl_cons, ih]
    by_cases ha : a ∈ hash
    · simp [ha, List.filter_cons]
    · simp [ha, List.filter_cons]

theorem intersection_eq_filter (s1 s2 : List String) :
    intersection s1 s2 = s2.filter (fun e => decide (e ∈ s1)) := by
  unfold intersection
  simp only [scan_foldl_eq_filter, List.nil_append]
  apply List.filter_congr
  intro x _
  simp [mem_hash_foldl]

theorem features_foldl_eq_map {κ : Type} (f : OSMFeature κ → RapidProGeoJSONFeature κ)
    (l : List (OSMFeature κ)) (acc : List (RapidProGeoJSONFeature κ)) :
    l.foldl (fun acc feature => acc ++ [f feature]) acc = acc ++ l.map f := by
  induction l generalizing acc with
  | nil => simp
  | cons a t ih => rw [List.foldl_cons, ih]; simp

theorem osmToRapidPro_features {κ : Type} (doc : OSMGeoJSON κ) (country : String)
    (states : List String) :
    (osmToRapidPro doc country states).Features
      = doc.Features.map (convertFeature country states) := by
  simp [osmToRapidPro, features_foldl_eq_map]

/-- The state linkage chosen for one feature, read off the first listed parent
that is a candidate. -/
theorem convertFeature_isInState {κ : Type} (country : String) (states : List String)
    (feature : OSMFeature κ) :
    (convertFeature country states feature).Properties.IsInState
      = match (stringsSplit feature.Properties.Parents ',').find?
            (fun p => decide (p ∈ states)) with
        | some p => rpOSMIdConv p
        | none => "None" := by
  simp only [convertFeature, intersection_eq_filter]
  generalize stringsSplit feature.Properties.Parents ',' = parents
  induction parents with
  | nil => rfl
  | cons a t ih =>
    by_cases ha : a ∈ states
    · simp [List.filter_cons, List.find?_cons, ha]
    · simpa [List.filter_cons, List.find?_cons, ha] using ih

theorem digitChar_ne_minus (m : Nat) (hm : m < 10) : Nat.digitChar m ≠ '-' := by
  interval_cases m <;> decide

theorem digitValue_digitChar (m : Nat) (hm : m < 10) : digitValue (Nat.digitChar m) = m := by
  interval_cases m <;> decide

theorem toDigitsCore_no_minus (fuel : Nat) :
    ∀ (n : Nat) (ds : List Char), '-' ∉ ds → '-' ∉ Nat.toDigitsCore 10 fuel n ds := by
  induction fuel with
  | zero => intro n ds h; simpa [Nat.toDigitsCore] using h
  | succ k ih =>
    intro n ds h
    have hd : '-' ∉ Nat.digitChar (n % 10) :: ds := by
      intro hmem
      rcases List.mem_cons.mp hmem with h1 | h1
      · exact digitChar_ne_minus (n % 10) (Nat.mod_lt n (by decide)) h1.symm
      · exact h h1
    rw [Nat.toDigitsCore]
    by_cases h0 : n / 10 = 0
    · simpa [h0] using hd
    · simpa [h0] using ih (n / 10) _ hd

theorem toDigitsCore_value (fuel : Nat) :
    ∀ (n : Nat) (ds : List Char), n < fuel →
      decimalValue 0 (Nat.toDigitsCore 10 fuel n ds) = decimalValue n ds := by
  induction fuel with
  | zero => intro n ds h; omega
  | succ k ih =>
    intro n ds h
    have hv := digitValue_digitChar (n % 10) (Nat.mod_lt n (by decide))
    rw [Nat.toDigitsCore]
    by_cases h0 : n / 10 = 0
    · have hn : n % 10 = n := by omega
      rw [hn] at hv
      simp [h0, decimalValue, hv, hn]
    · have hlt : n / 10 < k := by omega
      have hn : n / 10 * 10 + n % 10 = n := by omega
      simp only [h0, if_false]
      rw [ih (n / 10) _ hlt]
      simp [decimalValue, hv, hn]

theorem repr_no_minus (n : Nat) : '-' ∉ (Nat.repr n).data := by
  simpa [Nat.repr, Nat.toDigits, List.asString] using
    toDigitsCore_no_minus (n + 1) n [] (by simp)

theorem repr_value (n : Nat) : decimalValue 0 (Nat.repr n).data = n := by
  have h := toDigitsCore_value (n + 1) n [] (by omega)
  simpa [Nat.repr, Nat.toDigits, List.asString, decimalValue] using h

theorem Itoa_neg_data (n : Int) (hn : n < 0) :
    (Itoa n).data = '-' :: (Nat.repr n.natAbs).data := by
  simp [Itoa, hn]

theorem rpOSMIdConv_leading_minus (rest : List Char) :
    rpOSMIdConv ⟨'-' :: rest⟩ = ⟨'R' :: rest⟩ := by
  simp [rpOSMIdConv, stringsReplace, replaceChars]

theorem writeAll_returns {κ : Type} (env : Env κ) (osmOpts : OSMOpts) (log : List (Event κ))
    (filenamePrefix : String) (rp0 rp1 rp2 : RapidProGeoJSON κ) :
    ∃ e, (writeAll env osmOpts log filenamePrefix rp0 rp1 rp2).outcome = .returned e := by
  unfold writeAll
  simp only
  split
  · exact ⟨_, rfl⟩
  · split
    · exact ⟨_, rfl⟩
    · split
      · exact ⟨_, rfl⟩
      · exact ⟨_, rfl⟩

/-! ## Claims about `intersection` and `osmToRapidPro` -/

/-- C5: `intersection s1 s2` is the sub-sequence of `s2` made of the entries that
occur in `s1`: it is `s2` filtered by membership in `s1`, it is a sublist of
`s2`, its elements are exactly the strings that are in both lists, and an entry
of `s1` occurs in it as often as it occurs in `s2`. -/
theorem intersection_is_s2_filtered (s1 s2 : List String) :
    intersection s1 s2 = s2.filter (fun e => decide (e ∈ s1))
    ∧ List.Sublist (intersection s1 s2) s2
    ∧ (∀ e, e ∈ intersection s1 s2 ↔ e ∈ s1 ∧ e ∈ s2)
    ∧ (∀ e, (intersection s1 s2).count e = if e ∈ s1 then s2.count e else 0) := by
  rw [intersection_eq_filter]
  refine ⟨rfl, List.filter_sublist s2, ?_, ?_⟩
  · intro e
    simp only [List.mem_filter, decide_eq_true_eq]
    tauto
  · intro e
    by_cases he : e ∈ s1
    · rw [if_pos he, List.count_filter (by simpa using he)]
    · rw [if_neg he, List.count_eq_zero]
      simp [List.mem_filter, he]

/-- C1: the state linkages of the emitted features are, feature by feature and
in order, `rpOSMIdConv` of the first entry of the feature's comma-split parent
list that is a candidate state ID, or `"None"` when no entry is a candidate; the
result is the same for every reordering of the candidate list. -/
theorem osmToRapidPro_isInState {κ : Type} (doc : OSMGeoJSON κ) (country : String)
    (states : List String) :
    (osmToRapidPro doc country states).Features.map (fun g => g.Properties.IsInState)
      = doc.Features.map (fun f =>
          match (stringsSplit f.Properties.Parents ',').find? (fun p => decide (p ∈ states)) with
          | some p => rpOSMIdConv p
          | none => "None")
    ∧ ∀ states2 : List String, states2.Perm states →
        (osmToRapidPro doc country states2).Features.map (fun g => g.Properties.IsInState)
          = (osmToRapidPro doc country states).Features.map (fun g => g.Properties.IsInState) := by
  have key : ∀ st : List String,
      (osmToRapidPro doc country st).Features.map (fun g => g.Properties.IsInState)
        = doc.Features.map (fun f =>
            match (stringsSplit f.Properties.Parents ',').find? (fun p => decide (p ∈ st)) with
            | some p => rpOSMIdConv p
            | none => "None") := by
    intro st
    rw [osmToRapidPro_features, List.map_map]
    apply List.map_congr_left
    intro f _
    exact convertFeature_isInState country st f
  refine ⟨key states, ?_⟩
  intro states2 hp
  rw [key, key]
  apply List.map_congr_left
  intro f _
  have : (fun p => decide (p ∈ states2)) = (fun p => decide (p ∈ states)) := by
    funext p
    simp [hp.mem_iff]
  simp only [this]

/-- C1 at the parent list `5,6,7`: candidates `["6","9"]` give `"6"`, candidates
`["9"]` give `"None"`, and the reordered candidates `["9","6"]` give `"6"` again. -/
theorem osmToRapidPro_isInState_witness :
    (osmToRapidPro sampleDistricts "-1" ["6", "9"]).Features.map
        (fun g => g.Properties.IsInState) = ["6"]
    ∧ (osmToRapidPro sampleDistricts "-1" ["9"]).Features.map
        (fun g => g.Properties.IsInState) = ["None"]
    ∧ (osmToRapidPro sampleDistricts "-1" ["9", "6"]).Features.map
        (fun g => g.Properties.IsInState) = ["6"] :=
  ⟨(osmToRapidPro_isInState sampleDistricts "-1" ["6", "9"]).1.trans (by decide),
   (osmToRapidPro_isInState sampleDistricts "-1" ["9"]).1.trans (by decide),
   ((osmToRapidPro_isInState sampleDistricts "-1" ["6", "9"]).2 ["9", "6"]
      (List.Perm.swap "6" "9" [])).trans (by decide)⟩

/-- C3: the output has the type tag of the input and as many features; the
feature at each index has the geometry and feature type of the input feature at
that index, the ID `rpOSMIdConv (Itoa osm_id)` and the display name `local_name`. -/
theorem osmToRapidPro_preserves_order {κ : Type} (doc : OSMGeoJSON κ) (country : String)
    (states : List String) :
    (osmToRapidPro doc country states).Type_ = doc.Type_
    ∧ (osmToRapidPro doc country states).Features.length = doc.Features.length
    ∧ ∀ (i : Nat) (h : i < doc.Features.length),
        ∃ g, (osmToRapidPro doc country states).Features[i]? = some g
          ∧ g.Geometry = doc.Features[i].Geometry
          ∧ g.Type_ = doc.Features[i].Type_
          ∧ g.Properties.OSMID = rpOSMIdConv (Itoa doc.Features[i].Properties.OSMID)
          ∧ g.Properties.Name = doc.Features[i].Properties.LocalName := by
  refine ⟨rfl, ?_, ?_⟩
  · rw [osmToRapidPro_features, List.length_map]
  · intro i h
    refine ⟨convertFeature country states doc.Features[i], ?_, rfl, rfl, rfl, rfl⟩
    rw [osmToRapidPro_features, List.getElem?_map, List.getElem?_eq_getElem h]
    rfl

/-- C3 at the one-feature sample document: feature 0 keeps its geometry and
type, and gets the ID `R42` and the display name `Nairobi County`. -/
theorem osmToRapidPro_preserves_order_witness :
    ∃ g, (osmToRapidPro sampleDistricts "-1" ["6"]).Features[0]? = some g
      ∧ g.Geometry = { Type_ := "MultiPolygon", Coordinates := () }
      ∧ g.Type_ = "Feature"
      ∧ g.Properties.OSMID = "R42"
      ∧ g.Properties.Name = "Nairobi County" := by
  obtain ⟨g, hg, h1, h2, h3, h4⟩ :=
    (osmToRapidPro_preserves_order sampleDistricts "-1" ["6"]).2.2 0 (by decide)
  exact ⟨g, hg, h1, h2, h3.trans (by decide), h4⟩

/-- C4: the country linkages of the emitted features are, feature by feature,
`rpOSMIdConv countryOSMId`, one per source feature; with the argument `"None"`
they are all `"None"`. In particular every emitted feature carries that linkage. -/
theorem osmToRapidPro_isInCountry {κ : Type} (doc : OSMGeoJSON κ) (country : String)
    (states : List String) :
    (osmToRapidPro doc country states).Features.map (fun g => g.Properties.IsInCountry)
        = doc.Features.map (fun _ => rpOSMIdConv country)
    ∧ (osmToRapidPro doc "None" states).Features.map (fun g => g.Properties.IsInCountry)
        = doc.Features.map (fun _ => "None")
    ∧ (∀ g ∈ (osmToRapidPro doc country states).Features,
        g.Properties.IsInCountry = rpOSMIdConv country)
    ∧ (∀ g ∈ (osmToRapidPro doc "None" states).Features,
        g.Properties.IsInCountry = "None") := by
  have hmap : ∀ c : String,
      (osmToRapidPro doc c states).Features.map (fun g => g.Properties.IsInCountry)
        = doc.Features.map (fun _ => rpOSMIdConv c) := by
    intro c
    rw [osmToRapidPro_features, List.map_map]
    rfl
  have key : ∀ c : String, ∀ g ∈ (osmToRapidPro doc c states).Features,
      g.Properties.IsInCountry = rpOSMIdConv c := by
    intro c g hg
    rw [osmToRapidPro_features, List.mem_map] at hg
    obtain ⟨f, _, rfl⟩ := hg
    rfl
  have hnone : rpOSMIdConv "None" = "None" := by decide
  refine ⟨hmap country, ?_, key country, ?_⟩
  · rw [hmap "None", hnone]
  · intro g hg
    rw [key "None" g hg, hnone]

/-- C4 at the sample document: with country `-192798` the one emitted feature is
linked to `R192798`, with `"None"` it is linked to `None`, and the feature
converted from the sample feature is among the emitted ones. -/
theorem osmToRapidPro_isInCountry_witness :
    (osmToRapidPro sampleDistricts "-192798" []).Features.map
        (fun g => g.Properties.IsInCountry) = ["R192798"]
    ∧ (osmToRapidPro sampleDistricts "None" []).Features.map
        (fun g => g.Properties.IsInCountry) = ["None"]
    ∧ (convertFeature "-192798" []
          (sampleFeature (-42) "5,6,7" "Nairobi" "Nairobi County" "Nairobi (en)")
        ∈ (osmToRapidPro sampleDistricts "-192798" []).Features)
    ∧ (convertFeature "-192798" []
          (sampleFeature (-42) "5,6,7" "Nairobi" "Nairobi County"
            "Nairobi (en)")).Properties.IsInCountry = "R192798" :=
  have hmem : convertFeature "-192798" []
      (sampleFeature (-42) "5,6,7" "Nairobi" "Nairobi County" "Nairobi (en)")
      ∈ (osmToRapidPro sampleDistricts "-192798" []).Features :=
    List.mem_singleton.mpr rfl
  ⟨(osmToRapidPro_isInCountry sampleDistricts "-192798" []).1.trans (by decide),
   (osmToRapidPro_isInCountry sampleDistricts "-192798" []).2.1.trans (by decide),
   hmem,
   ((osmToRapidPro_isInCountry sampleDistricts "-192798" []).2.2.1 _ hmem).trans (by decide)⟩

/-- C7 as stated fails: the sample feature has `name_en` `Nairobi (en)`, but the
emitted feature's `name_en` is `Nairobi`, the source's `name`. -/
theorem osmToRapidPro_nameEn_counterexample :
    (osmToRapidPro sampleDistricts "-1" []).Features.map (fun g => g.Properties.NameEn)
        = ["Nairobi"]
    ∧ sampleDistricts.Features.map (fun f => f.Properties.NameEn) = ["Nairobi (en)"]
    ∧ (osmToRapidPro sampleDistricts "-1" []).Features.map (fun g => g.Properties.NameEn)
        ≠ sampleDistricts.Features.map (fun f => f.Properties.NameEn) := by
  decide

/-- C7 amended: the `name_en` of each emitted feature is the `name` property of
the source feature at the same position. -/
theorem osmToRapidPro_nameEn_is_source_name {κ : Type} (doc : OSMGeoJSON κ)
    (country : String) (states : List String) :
    (osmToRapidPro doc country states).Features.map (fun g => g.Properties.NameEn)
      = doc.Features.map (fun f => f.Properties.Name) := by
  rw [osmToRapidPro_features, List.map_map]
  rfl

/-! ## Claims about `rpOSMIdConv` -/

/-- C6: on IDs with a leading `-` the conversion `rpOSMIdConv` is injective; on the
decimal texts of negative integers it is injective as a function of the integer,
and its result starts with `R` and contains no `-`. -/
theorem rpOSMIdConv_injective_on_negative :
    (∀ a b : String, ['-'] <+: a.data → ['-'] <+: b.data →
        rpOSMIdConv a = rpOSMIdConv b → a = b)
    ∧ (∀ m n : Int, m < 0 → n < 0 → rpOSMIdConv (Itoa m) = rpOSMIdConv (Itoa n) → m = n)
    ∧ (∀ n : Int, n < 0 →
        ['R'] <+: (rpOSMIdConv (Itoa n)).data ∧ '-' ∉ (rpOSMIdConv (Itoa n)).data) := by
  have conv_neg : ∀ n : Int, n < 0 →
      rpOSMIdConv (Itoa n) = ⟨'R' :: (Nat.repr n.natAbs).data⟩ := by
    intro n hn
    have h : Itoa n = ⟨'-' :: (Nat.repr n.natAbs).data⟩ := by
      rw [← Itoa_neg_data n hn]
    rw [h, rpOSMIdConv_leading_minus]
  refine ⟨?_, ?_, ?_⟩
  · rintro ⟨da⟩ ⟨db⟩ ⟨ra, ha⟩ ⟨rb, hb⟩ h
    simp only [List.singleton_append] at ha hb
    subst ha
    subst hb
    rw [rpOSMIdConv_leading_minus, rpOSMIdConv_leading_minus] at h
    have hd := congrArg String.data h
    simp only [List.cons.injEq, true_and] at hd
    rw [hd]
  · intro m n hm hn h
    rw [conv_neg m hm, conv_neg n hn] at h
    have hd := congrArg String.data h
    simp only [List.cons.injEq, true_and] at hd
    have hv : m.natAbs = n.natAbs := by
      rw [← repr_value m.natAbs, ← repr_value n.natAbs, hd]
    omega
  · intro n hn
    rw [conv_neg n hn]
    refine ⟨⟨(Nat.repr n.natAbs).data, rfl⟩, ?_⟩
    intro hmem
    rcases List.mem_cons.mp hmem with h1 | h1
    · exact absurd h1 (by decide)
    · exact repr_no_minus _ h1

/-- C6 at `-10`, `-20` and `-3247585`: the first two convert to different
strings, and the third converts to a string that starts with `R` and has no `-`. -/
theorem rpOSMIdConv_injective_on_negative_witness :
    rpOSMIdConv (Itoa (-10)) ≠ rpOSMIdConv (Itoa (-20))
    ∧ rpOSMIdConv "-10" ≠ rpOSMIdConv "-20"
    ∧ ['R'] <+: (rpOSMIdConv (Itoa (-3247585))).data
    ∧ '-' ∉ (rpOSMIdConv (Itoa (-3247585))).data :=
  ⟨fun h => absurd (rpOSMIdConv_injective_on_negative.2.1 (-10) (-20) (by decide) (by decide) h)
      (by decide),
   fun h => absurd (rpOSMIdConv_injective_on_negative.1 "-10" "-20" ⟨_, rfl⟩ ⟨_, rfl⟩ h)
      (by decide),
   (rpOSMIdConv_injective_on_negative.2.2 (-3247585) (by decide)).1,
   (rpOSMIdConv_injective_on_negative.2.2 (-3247585) (by decide)).2⟩

/-! ## Claims about `getOSMAdminLevels` -/

/-- C2: when the mapping file is read and decoded, `getOSMAdminLevels` succeeds;
the country level is the default one; the state and district levels are the
override's when the region has an entry in `per_country`; without an entry the
result is the default triple. -/
theorem getOSMAdminLevels_resolves {κ : Type} (env : Env κ) (osmID mapFilePath mapFile : String)
    (m : AdminMapping) (hread : env.readFile mapFilePath = .ok mapFile)
    (hyaml : env.yamlUnmarshal mapFile = .ok m) :
    ∃ lv, getOSMAdminLevels env osmID mapFilePath = .ok lv
      ∧ lv.AdminLevel0 = m.Default.AdminLevel0
      ∧ (∀ entry, m.PerCountry.lookup osmID = some entry →
          lv.AdminLevel1 = entry.AdminLevel1 ∧ lv.AdminLevel2 = entry.AdminLevel2)
      ∧ (m.PerCountry.lookup osmID = none →
          lv = { AdminLevel0 := m.Default.AdminLevel0
                 AdminLevel1 := m.Default.AdminLevel1
                 AdminLevel2 := m.Default.AdminLevel2 }) := by
  unfold getOSMAdminLevels
  rw [hread]
  simp only [hyaml]
  cases hl : m.PerCountry.lookup osmID with
  | none =>
    refine ⟨_, rfl, rfl, ?_, fun _ => rfl⟩
    intro e he
    cases he
  | some entry =>
    refine ⟨_, rfl, rfl, ?_, ?_⟩
    · intro e he
      cases he
      exact ⟨rfl, rfl⟩
    · intro h
      cases h

/-- C2 at the default `{0,1,2}` with the override `R100` to `{5,7}`: `R100`
resolves to `{0,5,7}`, and `R200`, which has no entry, resolves to `{0,1,2}`. -/
theorem getOSMAdminLevels_resolves_witness :
    (∃ lv, getOSMAdminLevels sampleEnv "R100" "map.yaml" = .ok lv
      ∧ lv.AdminLevel0 = 0 ∧ lv.AdminLevel1 = 5 ∧ lv.AdminLevel2 = 7)
    ∧ (∃ lv, getOSMAdminLevels sampleEnv "R200" "map.yaml" = .ok lv
      ∧ lv = { AdminLevel0 := 0, AdminLevel1 := 1, AdminLevel2 := 2 }) := by
  obtain ⟨lv, hlv, h0, h12, _⟩ :=
    getOSMAdminLevels_resolves sampleEnv "R100" "map.yaml" "default: ..." sampleMapping rfl rfl
  obtain ⟨h1, h2⟩ := h12 { AdminLevel1 := 5, AdminLevel2 := 7, MetaName := "Sample" } rfl
  obtain ⟨lv2, hlv2, _, _, hdef⟩ :=
    getOSMAdminLevels_resolves sampleEnv "R200" "map.yaml" "default: ..." sampleMapping rfl rfl
  exact ⟨⟨lv, hlv, h0, h1, h2⟩, ⟨lv2, hlv2, hdef rfl⟩⟩

/-! ## Claims about `downloadAndParseOSM` and `main` -/

/-- C8: when level resolution and the country-level fetch succeed and the
state-level fetch fails with `err`, the run returns `err` and its log is exactly
the two fetches (country level, state level): there is no third fetch and no
write. -/
theorem downloadAndParseOSM_state_fetch_failure {κ : Type} (env : Env κ) (osmOpts : OSMOpts)
    (lv : OSMAdminLevel) (d0 : OSMGeoJSON κ) (err : String)
    (hlevels : getOSMAdminLevels env osmOpts.getRapidProOSMID osmOpts.AdminMapFile = .ok lv)
    (hfetch0 : env.download [] osmOpts lv.AdminLevel0 = .ok d0)
    (hfetch1 : env.download [Event.fetch lv.AdminLevel0] osmOpts lv.AdminLevel1 = .error err) :
    (downloadAndParseOSM env osmOpts).outcome = .returned (some err)
    ∧ (downloadAndParseOSM env osmOpts).log
        = [Event.fetch lv.AdminLevel0, Event.fetch lv.AdminLevel1]
    ∧ fetchedLevels (downloadAndParseOSM env osmOpts).log = [lv.AdminLevel0, lv.AdminLevel1]
    ∧ ∀ e ∈ (downloadAndParseOSM env osmOpts).log, e.isWrite = false := by
  have hrun : downloadAndParseOSM env osmOpts
      = ⟨.returned (some err), [Event.fetch lv.AdminLevel0, Event.fetch lv.AdminLevel1]⟩ := by
    unfold downloadAndParseOSM
    simp only [hlevels, hfetch0, hfetch1, List.singleton_append]
  rw [hrun]
  refine ⟨rfl, rfl, rfl, ?_⟩
  intro e he
  simp only [List.mem_cons, List.mem_singleton, List.not_mem_nil, or_false] at he
  rcases he with rfl | rfl <;> rfl

/-- C8 on a run whose first fetch succeeds and whose second fetch times out: the
run returns the time-out error after the fetches of levels `0` and `1`, and
nothing is written. -/
theorem downloadAndParseOSM_state_fetch_failure_witness :
    (downloadAndParseOSM envStateFetchFails sampleOpts).outcome
        = .returned (some "Error sending request : timeout")
    ∧ (downloadAndParseOSM envStateFetchFails sampleOpts).log
        = [Event.fetch 0, Event.fetch 1]
    ∧ fetchedLevels (downloadAndParseOSM envStateFetchFails sampleOpts).log = [0, 1]
    ∧ ∀ e ∈ (downloadAndParseOSM envStateFetchFails sampleOpts).log, e.isWrite = false :=
  downloadAndParseOSM_state_fetch_failure envStateFetchFails sampleOpts
    { AdminLevel0 := 0, AdminLevel1 := 1, AdminLevel2 := 2 } sampleCountry
    "Error sending request : timeout" rfl rfl rfl

/-- C10: when level resolution and the country-level and state-level fetches
succeed, the run panics at `Features[0]` exactly when the country-level document
has no feature; in that case it returns neither `nil` nor an error value, and
its log holds the two fetches and no write. -/
theorem downloadAndParseOSM_empty_country_panics {κ : Type} (env : Env κ) (osmOpts : OSMOpts)
    (lv : OSMAdminLevel) (d0 d1 : OSMGeoJSON κ)
    (hlevels : getOSMAdminLevels env osmOpts.getRapidProOSMID osmOpts.AdminMapFile = .ok lv)
    (hfetch0 : env.download [] osmOpts lv.AdminLevel0 = .ok d0)
    (hfetch1 : env.download [Event.fetch lv.AdminLevel0] osmOpts lv.AdminLevel1 = .ok d1) :
    ((downloadAndParseOSM env osmOpts).outcome = .panicked ↔ d0.Features.length = 0)
    ∧ ((∃ e, (downloadAndParseOSM env osmOpts).outcome = .returned e) ↔ 0 < d0.Features.length)
    ∧ (d0.Features.length = 0 →
        (∀ e, (downloadAndParseOSM env osmOpts).outcome ≠ .returned e)
        ∧ (downloadAndParseOSM env osmOpts).log
            = [Event.fetch lv.AdminLevel0, Event.fetch lv.AdminLevel1]
        ∧ ∀ e ∈ (downloadAndParseOSM env osmOpts).log, e.isWrite = false) := by
  cases hf : d0.Features with
  | nil =>
    have hrun : downloadAndParseOSM env osmOpts
        = ⟨.panicked, [Event.fetch lv.AdminLevel0, Event.fetch lv.AdminLevel1]⟩ := by
      unfold downloadAndParseOSM
      simp only [hlevels, hfetch0, hfetch1, hf, List.singleton_append]
    rw [hrun]
    refine ⟨by simp, by simp, ?_⟩
    intro _
    refine ⟨by simp, rfl, ?_⟩
    intro e he
    simp only [List.mem_cons, List.mem_singleton, List.not_mem_nil, or_false] at he
    rcases he with rfl | rfl <;> rfl
  | cons first rest =>
    have hret : ∃ e, (downloadAndParseOSM env osmOpts).outcome = .returned e := by
      unfold downloadAndParseOSM
      simp only [hlevels, hfetch0, hfetch1, hf]
      split
      · exact ⟨_, rfl⟩
      · exact writeAll_returns _ _ _ _ _ _ _
    obtain ⟨e, he⟩ := hret
    refine ⟨?_, ?_, ?_⟩
    · simp [he]
    · simp [he]
    · intro h
      simp at h

/-- C10 on a run whose country-level document has no feature: the run panics
after the fetches of levels `0` and `1`, and nothing is written. -/
theorem downloadAndParseOSM_empty_country_panics_witness :
    (downloadAndParseOSM envEmptyCountry sampleOpts).outcome = .panicked
    ∧ (∀ e, (downloadAndParseOSM envEmptyCountry sampleOpts).outcome ≠ .returned e)
    ∧ (downloadAndParseOSM envEmptyCountry sampleOpts).log = [Event.fetch 0, Event.fetch 1]
    ∧ ∀ e ∈ (downloadAndParseOSM envEmptyCountry sampleOpts).log, e.isWrite = false :=
  have h := downloadAndParseOSM_empty_country_panics envEmptyCountry sampleOpts
    { AdminLevel0 := 0, AdminLevel1 := 1, AdminLevel2 := 2 }
    { Type_ := "FeatureCollection", Features := [] } sampleStates rfl rfl rfl
  ⟨h.1.mpr rfl, (h.2.2 rfl).1, (h.2.2 rfl).2.1, (h.2.2 rfl).2.2⟩

/-- C9 fails on the code: in a run whose country-level fetch fails,
`downloadAndParseOSM` returns the fetch error, yet `Action` returns `nil` and the
exit status is `0`. -/
theorem Action_drops_error_at_failed_fetch :
    (downloadAndParseOSM sampleEnv sampleOpts).outcome
        = .returned (some "Error sending request : connection refused")
    ∧ Action sampleEnv sampleOpts = .returned none
    ∧ exitStatus (Action sampleEnv sampleOpts) = 0 := by
  refine ⟨rfl, rfl, rfl⟩

/-! ## Supporting facts about the orchestration -/

/-- The `Action` closure never returns an error value, whatever the run does. -/
theorem Action_never_returns_error {κ : Type} (env : Env κ) (osmOpts : OSMOpts)
    (e : ExitCoder) : Action env osmOpts ≠ .returned (some e) := by
  unfold Action
  split
  · intro h; cases h
  · split
    · intro h; cases h
    · intro h; cases h

/-- The first file a run tries to write holds the country-level document mapped
with the country argument `"None"` and no candidate states. -/
theorem downloadAndParseOSM_first_write {κ : Type} (env : Env κ) (osmOpts : OSMOpts)
    (lv : OSMAdminLevel) (d0 : OSMGeoJSON κ)
    (hlevels : getOSMAdminLevels env osmOpts.getRapidProOSMID osmOpts.AdminMapFile = .ok lv)
    (hfetch0 : env.download [] osmOpts lv.AdminLevel0 = .ok d0)
    (doc : RapidProGeoJSON κ) (dir name : String)
    (hfirst : ((downloadAndParseOSM env osmOpts).log.filter Event.isWrite).head?
      = some (Event.write doc dir name)) :
    doc = osmToRapidPro d0 "None" [] := by
  unfold downloadAndParseOSM at hfirst
  simp only [hlevels, hfetch0] at hfirst
  split at hfirst
  · simp [List.filter, Event.isWrite] at hfirst
  · split at hfirst
    · simp [List.filter, Event.isWrite] at hfirst
    · split at hfirst
      · simp [List.filter, Event.isWrite] at hfirst
      · unfold writeAll at hfirst
        simp only at hfirst
        split at hfirst
        · simp [List.filter, Event.isWrite] at hfirst
          exact hfirst.1.symm
        · split at hfirst
          · simp [List.filter, Event.isWrite] at hfirst
            exact hfirst.1.symm
          · split at hfirst
            · simp [List.filter, Event.isWrite] at hfirst
              exact hfirst.1.symm
            · simp [List.filter, Event.isWrite] at hfirst
              exact hfirst.1.symm

/-! ## A complete run -/

/-- The end-to-end scenario: with all fetches and writes succeeding the run
returns `nil` after three fetches and three writes, the files are named after the
country feature's ID, and the district features are linked to `R10`, `R20` and
`None`. -/
theorem downloadAndParseOSM_end_to_end :
    (downloadAndParseOSM envAllOk sampleOpts).outcome = .returned none
    ∧ (downloadAndParseOSM envAllOk sampleOpts).log
        = [Event.fetch 0, Event.fetch 1, Event.fetch 2,
           Event.write (osmToRapidPro sampleCountry "None" []) "out"
             "R192798admin0_simplified.json",
           Event.write (osmToRapidPro sampleStates "-192798" []) "out"
             "R192798admin1_simplified.json",
           Event.write (osmToRapidPro sampleDistrictLevel "-192798" ["-10", "-20"]) "out"
             "R192798admin2_simplified.json"]
    ∧ (osmToRapidPro sampleDistrictLevel "-192798" ["-10", "-20"]).Features.map
        (fun g => (g.Properties.OSMID, g.Properties.IsInCountry, g.Properties.IsInState))
        = [("R101", "R192798", "R10"), ("R201", "R192798", "R20"),
           ("R301", "R192798", "None")] := by
  refine ⟨rfl, rfl, by decide⟩

end RapidproOsm
